import Mathlib

/-!
Shallow embedding of `src/main.py` (the OurMoney single-file shopping-list
web application) and verification of its specification claims.

Modelling conventions:
* SQLite rows are Lean structures; the two tables (`shopping_list`,
  `budget`) live in a `DB` record together with the AUTOINCREMENT
  counters.
* Python `float` / SQL `REAL` values are modelled as exact rationals
  (`Rat`); IEEE rounding is not modelled.
* Python string parsing (`int(...)`, `float(...)`) is modelled for the
  decimal fragment: optional sign, digits, decimal point, exponent.
  Underscore digit separators, non-ASCII digits and the `inf`/`nan`
  spellings accepted by Python are not modelled.
* `str.strip()` is modelled over the ASCII whitespace characters
  recognised by `Char.isWhitespace`.
* `value.replace("$", "")` removes every occurrence of the
  single-character needle, hence is modelled as a character filter.
* HTML rendering is abstracted to the data it displays: fragments keep
  the error message text, and the rendered shopping table keeps the
  section/item ordering.
-/

/-- Storage classes a SQLite cell can hold in this program: integers,
reals and text (NULL and BLOB never reach the modelled columns). -/
inductive Val where
  | i (n : Int)
  | r (q : Rat)
  | t (s : String)
deriving DecidableEq

/-- Python `str.strip()` (also the whitespace trimming Python's `float`
performs itself): drop ASCII whitespace from both ends. -/
def pyStrip (s : String) : String :=
  ⟨((s.data.dropWhile Char.isWhitespace).reverse.dropWhile Char.isWhitespace).reverse⟩

/-- Python `value.replace("$", "")`: with a single-character needle this
removes every `$` from the string. -/
def removeDollars (s : String) : String :=
  ⟨s.data.filter (fun c => c ≠ '$')⟩

/-- Numeric value of a digit string (most significant first). -/
def digitsVal (l : List Char) : Nat :=
  l.foldl (fun a c => 10 * a + (c.toNat - ('0').toNat)) 0

/-- Split an optional leading sign; returns (isNegative, rest). -/
def splitSign : List Char → Bool × List Char
  | '+' :: l => (false, l)
  | '-' :: l => (true, l)
  | l => (false, l)

/-- Syntactic decomposition of a decimal literal: sign, integer-part
digits, fraction digits, exponent sign and exponent digits. -/
structure DecLit where
  neg : Bool
  ip : List Char
  fp : List Char
  eneg : Bool
  ed : List Char
deriving DecidableEq

/-- Parse the optional exponent tail of a decimal literal (`e`/`E`,
optional sign, at least one digit); `[]` means no exponent. -/
def parseExpTail (l : List Char) : Option (Bool × List Char) :=
  match l with
  | [] => some (false, [])
  | 'e' :: r =>
      let (sg, d) := splitSign r
      if d ≠ [] ∧ d.all Char.isDigit then some (sg, d) else none
  | 'E' :: r =>
      let (sg, d) := splitSign r
      if d ≠ [] ∧ d.all Char.isDigit then some (sg, d) else none
  | _ => none

/-- Parse a complete decimal literal (`[sign] (digits [. digits] | . digits)
[exponent]`); the whole input must be consumed. -/
def parseDecLit (l : List Char) : Option DecLit :=
  let (neg, l1) := splitSign l
  let ip := l1.takeWhile Char.isDigit
  let r1 := l1.dropWhile Char.isDigit
  match r1 with
  | '.' :: r2 =>
      let fp := r2.takeWhile Char.isDigit
      let r3 := r2.dropWhile Char.isDigit
      if ip = [] ∧ fp = [] then none
      else (parseExpTail r3).map fun p => ⟨neg, ip, fp, p.1, p.2⟩
  | _ =>
      if ip = [] then none
      else (parseExpTail r1).map fun p => ⟨neg, ip, [], p.1, p.2⟩

/-- Ten to an integer power, as a rational. -/
def powTen (e : Int) : Rat :=
  if 0 ≤ e then ((10 : Rat) ^ e.toNat) else 1 / ((10 : Rat) ^ (-e).toNat)

/-- Numeric value of a parsed decimal literal. -/
def litVal (d : DecLit) : Rat :=
  (if d.neg then (-1 : Rat) else 1) *
    ((digitsVal d.ip : Rat) + (digitsVal d.fp : Rat) / (10 : Rat) ^ d.fp.length) *
    powTen ((if d.eneg then (-1 : Int) else 1) * (digitsVal d.ed : Int))

/-- Python `float(s)` on the decimal fragment: strip whitespace, then the
string must be exactly a decimal literal. -/
def pyFloat (s : String) : Option Rat :=
  (parseDecLit (pyStrip s).data).map litVal

/-- Python `int(s)`: strip whitespace, optional sign, then digits only. -/
def pyInt (s : String) : Option Int :=
  let p := splitSign (pyStrip s).data
  if p.2 ≠ [] ∧ p.2.all Char.isDigit then
    some ((if p.1 then (-1 : Int) else 1) * (digitsVal p.2 : Int))
  else none

/-- SQLite "looks like an integer literal" test used by INTEGER column
affinity: the whole text is an optionally signed digit string. -/
def sqliteIntLit (s : String) : Option Int :=
  let p := splitSign s.data
  if p.2 ≠ [] ∧ p.2.all Char.isDigit then
    some ((if p.1 then (-1 : Int) else 1) * (digitsVal p.2 : Int))
  else none

/-- SQLite "looks like a real literal" test: the whole text is a decimal
literal. -/
def sqliteRealLit (s : String) : Option Rat :=
  (parseDecLit s.data).map litVal

/-- SQLite INTEGER column affinity applied to a bound text value: numeric
looking text is converted to a number (integral reals become integers),
anything else is stored as text. -/
def intAffinity (s : String) : Val :=
  match sqliteIntLit s with
  | some n => .i n
  | none =>
      match sqliteRealLit s with
      | some q => if q.den = 1 then .i q.num else .r q
      | none => .t s

/-- Longest numeric prefix of a text value, used by SQLite when a text
operand is cast to a number (exponent prefixes are not modelled; the
program only applies this to `0`/`1` flags). -/
def numericPrefixVal (s : String) : Rat :=
  let (neg, l1) := splitSign s.data
  let ip := l1.takeWhile Char.isDigit
  let r1 := l1.dropWhile Char.isDigit
  let fp := match r1 with
    | '.' :: r2 => r2.takeWhile Char.isDigit
    | _ => []
  (if neg then (-1 : Rat) else 1) *
    ((digitsVal ip : Rat) + (digitsVal fp : Rat) / (10 : Rat) ^ fp.length)

/-- Truth value SQLite assigns to an operand of `NOT`: numbers are true
iff nonzero, text is cast to a number first. -/
def valTruthy : Val → Bool
  | .i n => n ≠ 0
  | .r q => q ≠ 0
  | .t s => numericPrefixVal s ≠ 0

/-- SQLite `NOT found`: the operand's boolean value negated, stored as
`1` or `0`. -/
def sqlNot (v : Val) : Val :=
  .i (if valTruthy v then 0 else 1)

/-- Rounding to two fractional digits, modelling `round(float(v), 2)` in
the pydantic validators (ties on exact rationals are rounded via
`round`, which the claims never exercise). -/
def round2 (q : Rat) : Rat :=
  (round (q * 100) : Int) / 100

/-- Python `str.title()` as used in the validation error messages:
uppercase every letter that starts an alphabetic run, lowercase the
others. -/
def pyTitleGo : Bool → List Char → List Char
  | _, [] => []
  | prevAlpha, c :: l =>
      if c.isAlpha then
        (if prevAlpha then c.toLower else c.toUpper) :: pyTitleGo true l
      else c :: pyTitleGo false l

/-- Python `field.title()`. -/
def pyTitle (s : String) : String :=
  ⟨pyTitleGo false s.data⟩

/-- A row of the `shopping_list` table (schema of `setup_database`). The
`found` column has INTEGER affinity but no type constraint, so it keeps
the general `Val` type; the columns protected by CHECK constraints keep
their declared types, which is faithful because (as proved below) only
integers reach `quantity` and only rationals reach `cost`. -/
structure Item where
  id : Int
  category : String
  item : String
  quantity : Int
  cost : Rat
  notes : Option String
  found : Val
  store : String
deriving DecidableEq

/-- A row of the `budget` table. -/
structure BudgetRecord where
  id : Int
  amount : Rat
deriving DecidableEq

/-- The database: both tables plus their AUTOINCREMENT counters. -/
structure DB where
  items : List Item
  nextItemId : Int
  budget : List BudgetRecord
  nextBudgetId : Int
deriving DecidableEq

/-- Result of a request handler, keeping just what the claims need: an
inline error fragment with its message, or re-rendered content. -/
inductive Fragment where
  | errorMessage (msg : String)
  | content
deriving DecidableEq

/-- Row selected by `SELECT amount FROM budget ORDER BY id DESC LIMIT 1`:
the record with the greatest id (ids are unique by PRIMARY KEY). -/
def latestBudget (l : List BudgetRecord) : Option BudgetRecord :=
  l.foldl
    (fun acc r =>
      match acc with
      | none => some r
      | some m => if m.id < r.id then some r else some m)
    none

/-- `get_budget`: amount of the latest budget row, `0.0` if none. -/
def get_budget (db : DB) : Rat :=
  match latestBudget db.budget with
  | some r => r.amount
  | none => 0

/-- `SELECT SUM(cost * quantity) as total FROM shopping_list`: SQL `SUM`
is NULL when the table is empty. -/
def sqlSumTotal (items : List Item) : Option Rat :=
  match items with
  | [] => none
  | _ => some ((items.map (fun it => it.cost * (it.quantity : Rat))).sum)

/-- `get_total_cost`: `float(result['total']) if result['total'] else 0.0`
(both NULL and `0.0` are falsy in Python, giving `0.0`). -/
def get_total_cost (db : DB) : Rat :=
  match sqlSumTotal db.items with
  | some t => if t = 0 then 0 else t
  | none => 0

/-- Data shown by the `BudgetStatus` component. -/
structure BudgetView where
  budget : Rat
  totalCost : Rat
  remaining : Rat
  status : String
deriving DecidableEq

/-- `BudgetStatus()`: budget, total cost, remaining and the CSS status
suffix (`text-success` / `text-error`) chosen by the sign of remaining. -/
def BudgetStatus (db : DB) : BudgetView :=
  let budget := get_budget db
  let total_cost := get_total_cost db
  let remaining := budget - total_cost
  let status := if 0 ≤ remaining then "success" else "error"
  ⟨budget, total_cost, remaining, status⟩

/-- Sort key a SQLite cell contributes under `ORDER BY`: storage class
first (numbers before text), then numeric value, then text under the
default BINARY collation (modelled by Lean's code point order). -/
abbrev ValKeyT := Lex (Nat × Lex (Rat × String))

/-- Order key of a `found` cell. -/
def valKey : Val → ValKeyT
  | .i n => toLex (0, toLex ((n : Rat), ""))
  | .r q => toLex (0, toLex (q, ""))
  | .t s => toLex (1, toLex (0, s))

/-- Key of `ORDER BY found ASC, category ASC, id DESC` in
`fetch_shopping_list` (descending id encoded as ascending negated id). -/
def sqlKey (it : Item) : Lex (ValKeyT × Lex (String × Int)) :=
  toLex (valKey it.found, toLex (it.category, -it.id))

/-- Boolean comparator realising that ORDER BY clause. -/
def sqlLe (a b : Item) : Bool :=
  decide (sqlKey a ≤ sqlKey b)

/-- One step of the grouping loop of `fetch_shopping_list`: append the
item to its category's list, inserting a fresh key at the end (Python
dicts keep first-occurrence key order). -/
def insertGrouped (acc : List (String × List Item)) (it : Item) :
    List (String × List Item) :=
  match acc with
  | [] => [(it.category, [it])]
  | (c, l) :: rest =>
      if c = it.category then (c, l ++ [it]) :: rest
      else (c, l) :: insertGrouped rest it

/-- `fetch_shopping_list`: the sorted rows grouped by category into an
insertion-ordered mapping. -/
def fetch_shopping_list (db : DB) : List (String × List Item) :=
  ((db.items.mergeSort sqlLe).foldl insertGrouped [])

/-- Key of Python's `sorted(items, key=lambda x: (x['found'], -x['id']))`
in `ShoppingTable`. The comparison Python performs on the raw `found`
values is modelled by the same order as the store's, which coincides
with Python's whenever the compared values are numbers (the only case
where Python's tuple comparison is defined across rows). -/
def pyItemKey (it : Item) : Lex (ValKeyT × Int) :=
  toLex (valKey it.found, -it.id)

/-- Boolean comparator for that per-category sort. -/
def pyItemLe (a b : Item) : Bool :=
  decide (pyItemKey a ≤ pyItemKey b)

/-- Comparator of `sorted(categories.items())`: category names are the
dict's keys, hence pairwise distinct, so the name alone decides. -/
def catLe (a b : String × List Item) : Bool :=
  decide (a.1 ≤ b.1)

/-- The rendered shopping table: the empty-state placeholder, or the
category sections in sorted order with the items of each section in
sorted order. -/
inductive TableView where
  | emptyState (msg : String)
  | sections (secs : List (String × List Item))
deriving DecidableEq

/-- `ShoppingTable(categories)`. -/
def ShoppingTable (categories : List (String × List Item)) : TableView :=
  match categories with
  | [] => .emptyState "No items yet!"
  | _ => .sections
      ((categories.mergeSort catLe).map
        (fun p => (p.1, p.2.mergeSort pyItemLe)))

/-- The Python value `update_field` binds into the UPDATE statement:
`int` for quantity, `float` for cost, the raw string otherwise. -/
inductive PyVal where
  | s (v : String)
  | iv (v : Int)
  | fv (v : Rat)
deriving DecidableEq

/-- Text representation a bound value takes in a TEXT-affinity column
(only strings are ever bound to the text columns here). -/
def textOf : PyVal → String
  | .s v => v
  | .iv n => toString n
  | .fv q => toString q

/-- INTEGER affinity applied to a bound Python value. -/
def intAffinityPy : PyVal → Val
  | .s v => intAffinity v
  | .iv n => .i n
  | .fv q => if q.den = 1 then .i q.num else .r q

/-- Write the given bound value into one of the four TEXT columns of a
row. -/
def setTextField (field : String) (v : String) (it : Item) : Item :=
  if field = "category" then { it with category := v }
  else if field = "item" then { it with item := v }
  else if field = "notes" then { it with notes := some v }
  else if field = "store" then { it with store := v }
  else it

/-- Whether `UPDATE shopping_list SET id = n WHERE id = item_id` would
violate the PRIMARY KEY: some row moves to `n` while a different row
already occupies `n`. -/
def idConflict (db : DB) (item_id n : Int) : Bool :=
  (db.items.any (fun r => r.id = item_id)) && (n != item_id) &&
    (db.items.any (fun r => r.id = n))

/-- Effect of an UPDATE with `WHERE id = ?`: apply the cell write to
every row whose id matches. -/
def updRows (db : DB) (item_id : Int) (f : Item -> Item) : DB :=
  { db with items := db.items.map (fun it => if it.id = item_id then f it else it) }

/-- Resolution of the column identifier interpolated into the UPDATE
statement: SQLite resolves ASCII identifiers case-insensitively, and
whitespace around the identifier is insignificant in the statement
text. -/
def sqlIdent (s : String) : String :=
  ⟨(pyStrip s).data.map Char.toLower⟩

/-- The statement `UPDATE shopping_list SET {field} = ? WHERE id = ?` of
`update_field`, with the field name interpolated: the statement runs for
whatever column name arrives, the identifier resolved case-insensitively
and modulo surrounding whitespace (`sqlIdent`).  TEXT columns store the
bound string verbatim; `found` applies INTEGER affinity; `quantity` and
`cost` enforce their CHECK constraints; `id` must stay an integer and
unique; a name that is not a column makes the statement itself fail.  A
failed statement is caught in the handler and reported as the generic
update failure.  Two families of inputs are modelled only as failed
statements and are relied on by no theorem below: a value of the wrong
storage class bound to `quantity`, `cost` or `id` (reachable only
through a non-canonical spelling of the field name, which the
case-sensitive dispatch of `update_field` does not validate — the real
store would apply column affinity and the CHECK constraints there), and
field strings that are not plain identifiers at all. -/
def execUpdate (db : DB) (item_id : Int) (field : String) (value : PyVal) :
    Fragment × DB :=
  if sqlIdent field = "category" ∨ sqlIdent field = "item" ∨
      sqlIdent field = "notes" ∨ sqlIdent field = "store" then
    (.content, updRows db item_id (setTextField (sqlIdent field) (textOf value)))
  else if sqlIdent field = "quantity" then
    match value with
    | .iv n =>
        if n < 0 then (.errorMessage "Failed to update value", db)
        else (.content, updRows db item_id (fun it => { it with quantity := n }))
    | .s _ => (.errorMessage "Failed to update value", db)
    | .fv _ => (.errorMessage "Failed to update value", db)
  else if sqlIdent field = "cost" then
    match value with
    | .fv q =>
        if q < 0 then (.errorMessage "Failed to update value", db)
        else (.content, updRows db item_id (fun it => { it with cost := q }))
    | .s _ => (.errorMessage "Failed to update value", db)
    | .iv _ => (.errorMessage "Failed to update value", db)
  else if sqlIdent field = "found" then
    (.content, updRows db item_id (fun it => { it with found := intAffinityPy value }))
  else if sqlIdent field = "id" then
    match intAffinityPy value with
    | .i n =>
        if idConflict db item_id n then (.errorMessage "Failed to update value", db)
        else (.content, updRows db item_id (fun it => { it with id := n }))
    | .r _ => (.errorMessage "Failed to update value", db)
    | .t _ => (.errorMessage "Failed to update value", db)
  else (.errorMessage "Failed to update value", db)

/-- `update_field` (`POST /update/{item_id}/{field}`): reject an
empty-after-strip value; for `quantity`/`cost` parse the number (all `$`
characters removed from cost first) and reject parse failures and
negatives; then run the interpolated UPDATE. -/
def update_field (db : DB) (item_id : Int) (field : String) (value : String) :
    Fragment × DB :=
  if pyStrip value = "" then
    (.errorMessage (pyTitle field ++ " cannot be empty"), db)
  else if field = "quantity" then
    match pyInt value with
    | none => (.errorMessage ("Invalid " ++ field ++ " format"), db)
    | some n =>
        if n < 0 then (.errorMessage (pyTitle field ++ " cannot be negative"), db)
        else execUpdate db item_id field (.iv n)
  else if field = "cost" then
    match pyFloat (pyStrip (removeDollars value)) with
    | none => (.errorMessage ("Invalid " ++ field ++ " format"), db)
    | some q =>
        if q < 0 then (.errorMessage (pyTitle field ++ " cannot be negative"), db)
        else execUpdate db item_id field (.fv q)
  else execUpdate db item_id field (.s value)

/-- `toggle_found` (`POST /toggle_found/{item_id}`):
`UPDATE shopping_list SET found = NOT found WHERE id = ?`. -/
def toggle_found (db : DB) (item_id : Int) : DB :=
  updRows db item_id (fun it => { it with found := sqlNot it.found })

/-- `remove_item` (`POST /remove_item/{item_id}`):
`DELETE FROM shopping_list WHERE id = ?`. -/
def remove_item (db : DB) (item_id : Int) : DB :=
  { db with items := db.items.filter (fun it => it.id ≠ item_id) }

/-- The pydantic `ShoppingItem` as it reaches the add handler: the
`ge=0` constraints on quantity and cost have been checked and the cost
validator has rounded. -/
structure ShoppingItemIn where
  category : String
  item : String
  quantity : Int
  cost : Rat
  notes : Option String
  store : String
deriving DecidableEq

/-- Pydantic validation of a `ShoppingItem` from the submitted form
data: `Field(ge=0)` on quantity and cost, then the `validate_cost`
validator rounds the cost to two digits. -/
def mkShoppingItem (category item : String) (quantity : Int) (cost : Rat)
    (notes : Option String) (store : String) : Option ShoppingItemIn :=
  if quantity < 0 then none
  else if cost < 0 then none
  else some ⟨category, item, quantity, round2 cost, notes, store⟩

/-- `add_item` (`POST /add_item`): INSERT of the validated item; the
`found` column takes its schema default `0` and the id the next
AUTOINCREMENT value. -/
def add_item (db : DB) (it : ShoppingItemIn) : DB :=
  { db with
    items := db.items ++
      [⟨db.nextItemId, it.category, it.item, it.quantity, it.cost, it.notes, .i 0, it.store⟩],
    nextItemId := db.nextItemId + 1 }

/-- `update_budget` (`POST /set_budget`): reject a negative amount, else
`INSERT INTO budget (amount) VALUES (?)`. -/
def update_budget (db : DB) (budget : Rat) : Fragment × DB :=
  if budget < 0 then (.errorMessage "Budget cannot be negative", db)
  else
    (.content,
      { db with
        budget := db.budget ++ [⟨db.nextBudgetId, budget⟩],
        nextBudgetId := db.nextBudgetId + 1 })

/-- `update_budget_inline` (`POST /update/budget/amount`):
`float(value.replace("$", "").strip())`, reject parse failures and
negatives, else insert a new budget row. -/
def update_budget_inline (db : DB) (value : String) : Fragment × DB :=
  match pyFloat (pyStrip (removeDollars value)) with
  | none => (.errorMessage "Invalid budget amount. Please enter a valid number.", db)
  | some b =>
      if b < 0 then (.errorMessage "Budget cannot be negative", db)
      else
        (.content,
          { db with
            budget := db.budget ++ [⟨db.nextBudgetId, b⟩],
            nextBudgetId := db.nextBudgetId + 1 })

/-- The mutating requests of the application, with the raw inputs each
handler receives. -/
inductive Op where
  | addItem (category item : String) (quantity : Int) (cost : Rat)
      (notes : Option String) (store : String)
  | updateField (item_id : Int) (field : String) (value : String)
  | toggleFound (item_id : Int)
  | removeItem (item_id : Int)
  | setBudget (amount : Rat)
  | setBudgetInline (value : String)

/-- State transition of one mutating request (a pydantic rejection of
`add_item` reaches no handler and leaves the store untouched). -/
def applyOp (db : DB) : Op → DB
  | .addItem c i q co n s =>
      match mkShoppingItem c i q co n s with
      | none => db
      | some it => add_item db it
  | .updateField item_id field value => (update_field db item_id field value).2
  | .toggleFound item_id => toggle_found db item_id
  | .removeItem item_id => remove_item db item_id
  | .setBudget a => (update_budget db a).2
  | .setBudgetInline v => (update_budget_inline db v).2

/-- Invariant of claim C2: every stored item has nonnegative quantity
and cost. -/
def itemsNonneg (db : DB) : Bool :=
  db.items.all (fun it => 0 ≤ it.quantity && 0 ≤ it.cost)

/-- Example database used by the concrete witnesses and counterexamples:
one stored item and one budget record. -/
def dbPaint : DB :=
  ⟨[⟨1, "Paint", "Primer", 2, 15, none, .i 0, "Lowe"⟩], 2, [⟨1, 1000⟩], 2⟩

/-- Second example database: two categories, one found and one unfound
item, distinct ids. -/
def dbTwo : DB :=
  ⟨[⟨1, "Paint", "Primer", 2, 15, none, .i 0, "Lowe"⟩,
    ⟨2, "Tools", "Ladder", 1, 150, none, .i 1, "Lowe"⟩], 3, [⟨1, 1000⟩], 2⟩

/-- Modelled from the claim wording of C4, not from the source: cost
parsing with only a leading currency symbol stripped before the numeric
parse (the source instead removes every `$` character and strips
whitespace). -/
def stripLeadingDollar (s : String) : String :=
  match s.data with
  | '$' :: r => ⟨r⟩
  | _ => s

/-- Modelled from the claim wording of C4: the cost parse the claim
describes. -/
def claimCostParse (s : String) : Option Rat :=
  pyFloat (stripLeadingDollar s)

/-- The closed field set named by claims C5 and C10. -/
def knownEditFields : List String :=
  ["category", "item", "quantity", "cost", "notes", "store", "found"]

lemma get_total_cost_eq (db : DB) :
    get_total_cost db = (db.items.map (fun it => it.cost * (it.quantity : Rat))).sum := by
  rw [get_total_cost]
  cases h : sqlSumTotal db.items with
  | none =>
      rcases hi : db.items with _ | ⟨a, l⟩
      · simp [hi]
      · rw [hi] at h
        simp [sqlSumTotal] at h
  | some t =>
      rcases hi : db.items with _ | ⟨a, l⟩
      · simp [sqlSumTotal, hi] at h
      · rw [hi] at h
        rw [show sqlSumTotal (a :: l) =
              some (((a :: l).map (fun it => it.cost * (it.quantity : Rat))).sum) from rfl]
          at h
        cases h
        show (if ((a :: l).map (fun it => it.cost * (it.quantity : Rat))).sum = 0 then 0
              else ((a :: l).map (fun it => it.cost * (it.quantity : Rat))).sum) = _
        split
        · next hz => exact hz.symm
        · rfl

/-- C1: the rendered budget summary computes remaining as the current
budget amount minus the total cost, where total cost is the sum of
cost times quantity over all stored items (0 when no items exist), and
remaining is styled `success` when it is nonnegative and `error` when
it is negative. -/
theorem C1_budget_summary (db : DB) :
    (BudgetStatus db).budget = get_budget db ∧
    (BudgetStatus db).totalCost =
      (db.items.map (fun it => it.cost * (it.quantity : Rat))).sum ∧
    (db.items = [] → (BudgetStatus db).totalCost = 0) ∧
    (BudgetStatus db).remaining =
      (BudgetStatus db).budget - (BudgetStatus db).totalCost ∧
    (0 ≤ (BudgetStatus db).remaining → (BudgetStatus db).status = "success") ∧
    ((BudgetStatus db).remaining < 0 → (BudgetStatus db).status = "error") := by
  refine ⟨rfl, get_total_cost_eq db, ?_, rfl, ?_, ?_⟩
  · intro h
    rw [show (BudgetStatus db).totalCost = get_total_cost db from rfl,
      get_total_cost_eq, h]
    simp
  · intro h
    show (if 0 ≤ get_budget db - get_total_cost db then "success" else "error") = "success"
    rw [if_pos (by exact h)]
  · intro h
    show (if 0 ≤ get_budget db - get_total_cost db then "success" else "error") = "error"
    rw [if_neg (by exact not_le.mpr h)]

lemma pyStrip_of_all_ws {value : String}
    (h : value.data.all Char.isWhitespace = true) : pyStrip value = "" := by
  have h1 : value.data.dropWhile Char.isWhitespace = [] := by
    rw [List.dropWhile_eq_nil_iff]
    intro a ha
    exact List.all_eq_true.mp h a ha
  simp [pyStrip, h1]

/-- C9: the update-single-field operation applies its non-empty check to
every field name (the optional notes field included): an all-whitespace
value produces the validation error fragment and leaves the store
unchanged, so notes cannot be cleared through this endpoint. -/
theorem C9_empty_check_every_field (db : DB) (item_id : Int) (field value : String)
    (h : value.data.all Char.isWhitespace = true) :
    update_field db item_id field value =
      (.errorMessage (pyTitle field ++ " cannot be empty"), db) := by
  rw [update_field, if_pos (pyStrip_of_all_ws h)]

/-- Closed instance of C9: clearing `notes` with a blank string is
rejected and the store is untouched. -/
theorem C9_empty_check_every_field_witness :
    update_field ⟨[⟨1, "Paint", "Primer", 2, 15, none, .i 0, "Lowe"⟩], 2, [⟨1, 1000⟩], 2⟩
        1 "notes" "  " =
      (.errorMessage "Notes cannot be empty",
        ⟨[⟨1, "Paint", "Primer", 2, 15, none, .i 0, "Lowe"⟩], 2, [⟨1, 1000⟩], 2⟩) := by
  rw [C9_empty_check_every_field _ _ _ _ (by decide)]
  decide

lemma latestBudget_step (l : List BudgetRecord) (m : BudgetRecord) :
    ∃ r, l.foldl
        (fun acc r =>
          match acc with
          | none => some r
          | some m => if m.id < r.id then some r else some m)
        (some m) = some r ∧
      (r = m ∨ r ∈ l) ∧ m.id ≤ r.id ∧ ∀ x ∈ l, x.id ≤ r.id := by
  induction l generalizing m with
  | nil => exact ⟨m, rfl, Or.inl rfl, le_refl _, by simp⟩
  | cons a l ih =>
      by_cases h : m.id < a.id
      · obtain ⟨r, hr, hmem, hle, hall⟩ := ih a
        refine ⟨r, ?_, ?_, ?_, ?_⟩
        · simpa [h] using hr
        · rcases hmem with rfl | hm
          · exact Or.inr (List.mem_cons_self _ _)
          · exact Or.inr (List.mem_cons_of_mem _ hm)
        · exact le_of_lt (lt_of_lt_of_le h hle)
        · intro x hx
          rcases List.mem_cons.mp hx with rfl | hx
          · exact hle
          · exact hall x hx
      · obtain ⟨r, hr, hmem, hle, hall⟩ := ih m
        refine ⟨r, ?_, ?_, ?_, ?_⟩
        · simpa [h] using hr
        · rcases hmem with rfl | hm
          · exact Or.inl rfl
          · exact Or.inr (List.mem_cons_of_mem _ hm)
        · exact hle
        · intro x hx
          rcases List.mem_cons.mp hx with rfl | hx
          · exact le_trans (le_of_not_lt h) hle
          · exact hall x hx

lemma latestBudget_max (l : List BudgetRecord) (hl : l ≠ []) :
    ∃ r ∈ l, latestBudget l = some r ∧ ∀ x ∈ l, x.id ≤ r.id := by
  rcases l with _ | ⟨a, l⟩
  · exact absurd rfl hl
  · obtain ⟨r, hr, hmem, hle, hall⟩ := latestBudget_step l a
    refine ⟨r, ?_, ?_, ?_⟩
    · rcases hmem with rfl | hm
      · exact List.mem_cons_self _ _
      · exact List.mem_cons_of_mem _ hm
    · simpa [latestBudget] using hr
    · intro x hx
      rcases List.mem_cons.mp hx with rfl | hx
      · exact hle
      · exact hall x hx

/-- C3: for every nonnegative amount, `set_budget` appends exactly one
new budget record (leaving prior records unchanged as a prefix), and
`get_budget` returns the amount of the record with the highest id, or
`0.0` when no budget record exists. -/
theorem C3_budget_append_and_latest (db : DB) (a : Rat) (ha : 0 ≤ a) :
    (update_budget db a).2.budget = db.budget ++ [⟨db.nextBudgetId, a⟩] ∧
    (db.budget = [] → get_budget db = 0) ∧
    (db.budget ≠ [] →
      ∃ r ∈ db.budget, get_budget db = r.amount ∧ ∀ x ∈ db.budget, x.id ≤ r.id) := by
  refine ⟨?_, ?_, ?_⟩
  · rw [update_budget, if_neg (not_lt.mpr ha)]
  · intro h
    rw [get_budget, h]
    rfl
  · intro h
    obtain ⟨r, hmem, hlatest, hmax⟩ := latestBudget_max db.budget h
    exact ⟨r, hmem, by rw [get_budget, hlatest], hmax⟩

/-- Closed instance of C3: setting a budget of 5 on a store holding one
budget record appends a second record and the current budget resolves
to the highest-id record. -/
theorem C3_budget_append_and_latest_witness :
    (update_budget ⟨[], 1, [⟨1, 1000⟩], 2⟩ 5).2.budget = [⟨1, 1000⟩, ⟨2, 5⟩] ∧
    get_budget ⟨[], 1, [⟨1, 1000⟩], 2⟩ = 1000 := by
  obtain ⟨h1, _, h3⟩ :=
    C3_budget_append_and_latest ⟨[], 1, [⟨1, 1000⟩], 2⟩ 5 (by norm_num)
  refine ⟨h1, ?_⟩
  rfl

lemma execUpdate_quantity (db : DB) (item_id : Int) (n : Int) :
    execUpdate db item_id "quantity" (.iv n) =
      if n < 0 then (.errorMessage "Failed to update value", db)
      else (.content, updRows db item_id (fun it => { it with quantity := n })) := rfl

lemma execUpdate_cost (db : DB) (item_id : Int) (q : Rat) :
    execUpdate db item_id "cost" (.fv q) =
      if q < 0 then (.errorMessage "Failed to update value", db)
      else (.content, updRows db item_id (fun it => { it with cost := q })) := rfl

lemma execUpdate_found (db : DB) (item_id : Int) (v : PyVal) :
    execUpdate db item_id "found" v =
      (.content, updRows db item_id (fun it => { it with found := intAffinityPy v })) := rfl

lemma execUpdate_id (db : DB) (item_id : Int) (v : PyVal) :
    execUpdate db item_id "id" v =
      (match intAffinityPy v with
       | .i n =>
           if idConflict db item_id n then (.errorMessage "Failed to update value", db)
           else (.content, updRows db item_id (fun it => { it with id := n }))
       | .r _ => (.errorMessage "Failed to update value", db)
       | .t _ => (.errorMessage "Failed to update value", db)) := rfl

lemma execUpdate_text (db : DB) (item_id : Int) (field : String) (v : PyVal)
    (hf : field = "category" ∨ field = "item" ∨ field = "notes" ∨ field = "store") :
    execUpdate db item_id field v =
      (.content, updRows db item_id (setTextField field (textOf v))) := by
  rcases hf with rfl | rfl | rfl | rfl <;> rfl

lemma execUpdate_notes_variant (db : DB) (item_id : Int) (v : PyVal) :
    execUpdate db item_id "Notes" v =
      (.content, updRows db item_id (setTextField "notes" (textOf v))) := rfl

lemma update_field_quantity (db : DB) (item_id : Int) (value : String)
    (hne : pyStrip value ≠ "") :
    update_field db item_id "quantity" value =
      (match pyInt value with
       | none => (.errorMessage "Invalid quantity format", db)
       | some n =>
           if n < 0 then (.errorMessage "Quantity cannot be negative", db)
           else execUpdate db item_id "quantity" (.iv n)) := by
  rw [update_field, if_neg hne, if_pos rfl]
  cases pyInt value with
  | none => rfl
  | some n => rfl

lemma update_field_cost (db : DB) (item_id : Int) (value : String)
    (hne : pyStrip value ≠ "") :
    update_field db item_id "cost" value =
      (match pyFloat (pyStrip (removeDollars value)) with
       | none => (.errorMessage "Invalid cost format", db)
       | some q =>
           if q < 0 then (.errorMessage "Cost cannot be negative", db)
           else execUpdate db item_id "cost" (.fv q)) := by
  rw [update_field, if_neg hne, if_neg (by decide), if_pos rfl]
  cases pyFloat (pyStrip (removeDollars value)) with
  | none => rfl
  | some q => rfl

lemma update_field_other (db : DB) (item_id : Int) (field value : String)
    (hne : pyStrip value ≠ "") (hq : field ≠ "quantity") (hc : field ≠ "cost") :
    update_field db item_id field value = execUpdate db item_id field (.s value) := by
  rw [update_field, if_neg hne, if_neg hq, if_neg hc]

lemma itemsNonneg_mem {db : DB} (h : itemsNonneg db = true) :
    ∀ it ∈ db.items, 0 ≤ it.quantity ∧ 0 ≤ it.cost := by
  intro it hit
  have := List.all_eq_true.mp h it hit
  simpa using this

lemma itemsNonneg_of_mem {db : DB}
    (h : ∀ it ∈ db.items, 0 ≤ it.quantity ∧ 0 ≤ it.cost) : itemsNonneg db = true := by
  rw [itemsNonneg, List.all_eq_true]
  intro it hit
  simpa using h it hit

lemma itemsNonneg_updRows {db : DB} {item_id : Int} {f : Item → Item}
    (h : itemsNonneg db = true)
    (hf : ∀ it, 0 ≤ it.quantity ∧ 0 ≤ it.cost → 0 ≤ (f it).quantity ∧ 0 ≤ (f it).cost) :
    itemsNonneg (updRows db item_id f) = true := by
  apply itemsNonneg_of_mem
  intro it hit
  obtain ⟨x, hx, rfl⟩ := List.mem_map.mp hit
  by_cases hid : x.id = item_id
  · simpa [hid] using hf x (itemsNonneg_mem h x hx)
  · simpa [hid] using itemsNonneg_mem h x hx

lemma round2_nonneg {q : Rat} (h : 0 ≤ q) : 0 ≤ round2 q := by
  rw [round2]
  have h1 : (0 : Int) ≤ round (q * 100) := by
    rw [round_eq]
    rw [show (0 : Int) = ⌊(0 : Rat)⌋ from by simp]
    exact Int.floor_le_floor (by positivity)
  positivity

lemma setTextField_qc (field : String) (v : String) (it : Item) :
    (setTextField field v it).quantity = it.quantity ∧
    (setTextField field v it).cost = it.cost := by
  rw [setTextField]
  split
  · exact ⟨rfl, rfl⟩
  · split
    · exact ⟨rfl, rfl⟩
    · split
      · exact ⟨rfl, rfl⟩
      · split
        · exact ⟨rfl, rfl⟩
        · exact ⟨rfl, rfl⟩

lemma itemsNonneg_execUpdate {db : DB} (item_id : Int) (field : String) (v : PyVal)
    (h : itemsNonneg db = true)
    (hq : ∀ n : Int, v = .iv n → 0 ≤ n) (hc : ∀ q : Rat, v = .fv q → 0 ≤ q) :
    itemsNonneg (execUpdate db item_id field v).2 = true := by
  rw [execUpdate.eq_def]
  split
  · next hf =>
      exact itemsNonneg_updRows h fun it hit => by
        have := setTextField_qc (sqlIdent field) (textOf v) it
        exact ⟨this.1 ▸ hit.1, this.2 ▸ hit.2⟩
  · next hf =>
      split
      · next hfq =>
          cases v with
          | iv n =>
              show itemsNonneg
                (if n < 0 then (Fragment.errorMessage "Failed to update value", db)
                 else (Fragment.content,
                   updRows db item_id fun it => { it with quantity := n })).2 = true
              by_cases hn : n < 0
              · simpa [hn] using h
              · rw [if_neg hn]
                exact itemsNonneg_updRows h fun it hit => ⟨hq n rfl, hit.2⟩
          | s w => exact h
          | fv q => exact h
      · next hfq =>
          split
          · next hfc =>
              cases v with
              | fv q =>
                  show itemsNonneg
                    (if q < 0 then (Fragment.errorMessage "Failed to update value", db)
                     else (Fragment.content,
                       updRows db item_id fun it => { it with cost := q })).2 = true
                  by_cases hqn : q < 0
                  · simpa [hqn] using h
                  · rw [if_neg hqn]
                    exact itemsNonneg_updRows h fun it hit => ⟨hit.1, hc q rfl⟩
              | s w => exact h
              | iv n => exact h
          · next hfc =>
              split
              · next hff =>
                  exact itemsNonneg_updRows h fun it hit => hit
              · next hff =>
                  split
                  · next hfi =>
                      cases hiv : intAffinityPy v with
                      | i n =>
                          show itemsNonneg
                            (if idConflict db item_id n = true then
                               (Fragment.errorMessage "Failed to update value", db)
                             else (Fragment.content,
                               updRows db item_id fun it => { it with id := n })).2 = true
                          by_cases hcf : idConflict db item_id n = true
                          · simpa [hcf] using h
                          · rw [if_neg hcf]
                            exact itemsNonneg_updRows h fun it hit => hit
                      | r q => exact h
                      | t s => exact h
                  · next hfi => exact h

lemma itemsNonneg_update_field {db : DB} (item_id : Int) (field value : String)
    (h : itemsNonneg db = true) :
    itemsNonneg (update_field db item_id field value).2 = true := by
  rw [update_field.eq_def]
  split
  · exact h
  · split
    · next hfq =>
        cases pyInt value with
        | none => exact h
        | some n =>
            show itemsNonneg
              (if n < 0 then
                 (Fragment.errorMessage (pyTitle field ++ " cannot be negative"), db)
               else execUpdate db item_id field (.iv n)).2 = true
            by_cases hn : n < 0
            · simpa [hn] using h
            · rw [if_neg hn]
              exact itemsNonneg_execUpdate item_id field (.iv n) h
                (fun m hm => by cases hm; exact not_lt.mp hn)
                (fun q hq => by cases hq)
    · split
      · next hfc =>
          cases pyFloat (pyStrip (removeDollars value)) with
          | none => exact h
          | some q =>
              show itemsNonneg
                (if q < 0 then
                   (Fragment.errorMessage (pyTitle field ++ " cannot be negative"), db)
                 else execUpdate db item_id field (.fv q)).2 = true
              by_cases hq : q < 0
              · simpa [hq] using h
              · rw [if_neg hq]
                exact itemsNonneg_execUpdate item_id field (.fv q) h
                  (fun m hm => by cases hm)
                  (fun m hm => by cases hm; exact not_lt.mp hq)
      · exact itemsNonneg_execUpdate item_id field (.s value) h
          (fun m hm => by cases hm) (fun m hm => by cases hm)

/-- C2: every mutating request preserves the invariant that every stored
item has nonnegative quantity and nonnegative cost: the writing
operations reject negative values before any write, so no reachable
state contains a negative quantity or cost. -/
theorem C2_nonneg_invariant (db : DB) (op : Op) (h : itemsNonneg db = true) :
    itemsNonneg (applyOp db op) = true := by
  cases op with
  | addItem c i q co n s =>
      rw [applyOp]
      cases hm : mkShoppingItem c i q co n s with
      | none => exact h
      | some itm =>
          rw [mkShoppingItem] at hm
          by_cases h1 : q < 0
          · rw [if_pos h1] at hm
            cases hm
          · rw [if_neg h1] at hm
            by_cases h2 : co < 0
            · rw [if_pos h2] at hm
              cases hm
            · rw [if_neg h2] at hm
              cases hm
              apply itemsNonneg_of_mem
              intro it hit
              rcases List.mem_append.mp hit with hold | hnew
              · exact itemsNonneg_mem h it hold
              · rw [List.mem_singleton] at hnew
                subst hnew
                exact ⟨not_lt.mp h1, round2_nonneg (not_lt.mp h2)⟩
  | updateField item_id field value => exact itemsNonneg_update_field item_id field value h
  | toggleFound item_id =>
      exact itemsNonneg_updRows h fun it hit => hit
  | removeItem item_id =>
      apply itemsNonneg_of_mem
      intro it hit
      exact itemsNonneg_mem h it (List.mem_of_mem_filter hit)
  | setBudget a =>
      rw [applyOp, update_budget]
      split
      · exact h
      · exact h
  | setBudgetInline v =>
      rw [applyOp, update_budget_inline.eq_def]
      split
      · exact h
      · split
        · exact h
        · exact h

/-- Closed instance of C2: the invariant survives an update that writes
a new quantity. -/
theorem C2_nonneg_invariant_witness :
    itemsNonneg
      (applyOp ⟨[⟨1, "Paint", "Primer", 2, 15, none, .i 0, "Lowe"⟩], 2, [⟨1, 1000⟩], 2⟩
        (.updateField 1 "quantity" "3")) = true := by
  exact C2_nonneg_invariant _ _ (by decide)

/-- C8: for an item whose found flag is stored as the boolean `0` or
`1`, toggling twice restores the database exactly: the item's found
flag equals its original value and every other field (of it and of
every other row) is unchanged. -/
theorem C8_toggle_involutive (db : DB) (item_id : Int)
    (h : ∀ it ∈ db.items, it.id = item_id → (it.found = Val.i 0 ∨ it.found = Val.i 1)) :
    toggle_found (toggle_found db item_id) item_id = db := by
  rw [toggle_found, toggle_found, updRows, updRows]
  show ({ db with items := (db.items.map _).map _ } : DB) = db
  rw [List.map_map]
  have hmap : ∀ it ∈ db.items,
      ((fun it => if it.id = item_id then { it with found := sqlNot it.found } else it) ∘
        (fun it => if it.id = item_id then { it with found := sqlNot it.found } else it)) it
        = it := by
    intro it hit
    by_cases hid : it.id = item_id
    · obtain ⟨iid, icat, iitem, iq, ic, inotes, ifound, istore⟩ := it
      rcases h _ hit hid with hf | hf <;>
        · simp only [] at hf hid
          subst hf
          subst hid
          simp [Function.comp, sqlNot, valTruthy]
    · simp [Function.comp, hid]
  rw [List.map_congr_left hmap]
  simp

/-- Closed instance of C8: toggling an unfound item twice restores the
store. -/
theorem C8_toggle_involutive_witness :
    toggle_found
      (toggle_found ⟨[⟨1, "Paint", "Primer", 2, 15, none, .i 0, "Lowe"⟩], 2, [⟨1, 1000⟩], 2⟩ 1)
      1 =
      ⟨[⟨1, "Paint", "Primer", 2, 15, none, .i 0, "Lowe"⟩], 2, [⟨1, 1000⟩], 2⟩ := by
  apply C8_toggle_involutive
  intro it hit hid
  rw [List.mem_singleton] at hit
  subst hit
  exact Or.inl rfl

lemma pyFloat_12 : pyFloat "12" = some 12 := by
  rw [pyFloat, show pyStrip "12" = "12" from by decide,
    show parseDecLit "12".data = some ⟨false, ['1', '2'], [], false, []⟩ from by decide]
  have d1 : digitsVal ['1', '2'] = 12 := by decide
  have d0 : digitsVal ([] : List Char) = 0 := by decide
  simp [litVal, powTen, d1, d0]

/-- C4 fails as stated: the source does not strip only a leading
currency symbol from a cost value, it removes every `$` character, so
the value `1$2` — which fails the claimed parse — is accepted and the
row is changed (its cost becomes 12). -/
theorem C4_counterexample :
    claimCostParse "1$2" = none ∧
    (update_field dbPaint 1 "cost" "1$2").2.items.map (fun it => it.cost) = [12] ∧
    (update_field dbPaint 1 "cost" "1$2").2 ≠ dbPaint := by
  have hp : pyFloat (pyStrip (removeDollars "1$2")) = some 12 := by
    rw [show pyStrip (removeDollars "1$2") = "12" from by decide]
    exact pyFloat_12
  have hupd : update_field dbPaint 1 "cost" "1$2" =
      (.content, updRows dbPaint 1 (fun it => { it with cost := 12 })) := by
    rw [update_field_cost _ _ _ (by decide), hp]
    show (if (12 : Rat) < 0 then _ else execUpdate dbPaint 1 "cost" (.fv 12)) = _
    rw [if_neg (by norm_num), execUpdate_cost, if_neg (by norm_num)]
  refine ⟨by decide, ?_, ?_⟩
  · rw [hupd]
    simp [updRows, dbPaint]
  · rw [hupd]
    intro heq
    have h2 := congrArg (fun d => d.items.map (fun it => it.cost)) heq
    simp [updRows, dbPaint] at h2

/-- C4 amended: update-single-field returns a validation error and
leaves the store unchanged when the submitted value is blank, or, for
quantity and cost, when it fails to parse (quantity as an integer, cost
as a float after removing every `$` character and stripping whitespace)
or is negative; otherwise it updates exactly the submitted field of the
rows with the given id. -/
theorem C4_amended_update_field_validation (db : DB) (item_id : Int) (value : String) :
    (value.data.all Char.isWhitespace = true → ∀ field,
      update_field db item_id field value =
        (.errorMessage (pyTitle field ++ " cannot be empty"), db)) ∧
    (pyStrip value ≠ "" → pyInt value = none →
      update_field db item_id "quantity" value =
        (.errorMessage "Invalid quantity format", db)) ∧
    (∀ n : Int, pyStrip value ≠ "" → pyInt value = some n → n < 0 →
      update_field db item_id "quantity" value =
        (.errorMessage "Quantity cannot be negative", db)) ∧
    (∀ n : Int, pyStrip value ≠ "" → pyInt value = some n → 0 ≤ n →
      update_field db item_id "quantity" value =
        (.content, updRows db item_id (fun it => { it with quantity := n }))) ∧
    (pyStrip value ≠ "" → pyFloat (pyStrip (removeDollars value)) = none →
      update_field db item_id "cost" value =
        (.errorMessage "Invalid cost format", db)) ∧
    (∀ q : Rat, pyStrip value ≠ "" → pyFloat (pyStrip (removeDollars value)) = some q →
      q < 0 →
      update_field db item_id "cost" value =
        (.errorMessage "Cost cannot be negative", db)) ∧
    (∀ q : Rat, pyStrip value ≠ "" → pyFloat (pyStrip (removeDollars value)) = some q →
      0 ≤ q →
      update_field db item_id "cost" value =
        (.content, updRows db item_id (fun it => { it with cost := q }))) := by
  refine ⟨?_, ?_, ?_, ?_, ?_, ?_, ?_⟩
  · intro h field
    rw [update_field, if_pos (pyStrip_of_all_ws h)]
  · intro hne hnone
    rw [update_field_quantity db item_id value hne, hnone]
  · intro n hne hsome hn
    rw [update_field_quantity db item_id value hne, hsome]
    show (if n < 0 then _ else _) = _
    rw [if_pos hn]
  · intro n hne hsome hn
    rw [update_field_quantity db item_id value hne, hsome]
    show (if n < 0 then _ else execUpdate db item_id "quantity" (.iv n)) = _
    rw [if_neg (not_lt.mpr hn), execUpdate_quantity, if_neg (not_lt.mpr hn)]
  · intro hne hnone
    rw [update_field_cost db item_id value hne, hnone]
  · intro q hne hsome hq
    rw [update_field_cost db item_id value hne, hsome]
    show (if q < 0 then _ else _) = _
    rw [if_pos hq]
  · intro q hne hsome hq
    rw [update_field_cost db item_id value hne, hsome]
    show (if q < 0 then _ else execUpdate db item_id "cost" (.fv q)) = _
    rw [if_neg (not_lt.mpr hq), execUpdate_cost, if_neg (not_lt.mpr hq)]

/-- Closed instance of C4 (amended): the spec scenarios — updating cost
to `$12.50` stores the numeric value 12.50, and updating quantity to
`-1` is rejected with the store unchanged. -/
theorem C4_amended_update_field_validation_witness :
    update_field dbPaint 1 "cost" "$12.50" =
      (.content, updRows dbPaint 1 (fun it => { it with cost := 25 / 2 })) ∧
    update_field dbPaint 1 "quantity" "-1" =
      (.errorMessage "Quantity cannot be negative", dbPaint) := by
  constructor
  · refine (C4_amended_update_field_validation dbPaint 1 "$12.50").2.2.2.2.2.2 (25 / 2)
        (by decide) ?_ (by norm_num)
    rw [show pyStrip (removeDollars "$12.50") = "12.50" from by decide, pyFloat,
        show pyStrip "12.50" = "12.50" from by decide,
      show parseDecLit "12.50".data = some ⟨false, ['1', '2'], ['5', '0'], false, []⟩
        from by decide]
    have d1 : digitsVal ['1', '2'] = 12 := by decide
    have d2 : digitsVal ['5', '0'] = 50 := by decide
    have d0 : digitsVal ([] : List Char) = 0 := by decide
    simp [litVal, powTen, d1, d2, d0]
    norm_num
  · exact (C4_amended_update_field_validation dbPaint 1 "-1").2.2.1 (-1)
      (by decide) (by decide) (by norm_num)

/-- C5 fails as stated: `update_field` interpolates the submitted field
name into the UPDATE statement, so a field outside the known edit set —
here the primary key `id` itself — is updated: the statement executes
and changes the stored row. -/
theorem C5_counterexample :
    ("id" ∈ knownEditFields) = False ∧
    (update_field dbPaint 1 "id" "2").2.items.map (fun it => it.id) = [2] ∧
    (update_field dbPaint 1 "id" "2").2 ≠ dbPaint := by
  refine ⟨by simp [knownEditFields], ?_, ?_⟩
  · decide
  · decide

/-- C5 amended: `update_field` does not itself enforce the closed
field set: the submitted field name is interpolated into the UPDATE
statement, whose column identifier resolves case-insensitively, and
the statement executes for columns outside the set — updating `id`
rewrites the primary key, and the non-canonical spelling `Notes`
resolves to the notes column.  The closed-set restriction exists only
in which inline edit endpoints the page exposes. -/
theorem C5_amended_no_whitelist (db : DB) (item_id : Int) (value : String) :
    (∀ n : Int, pyStrip value ≠ "" → intAffinity value = .i n →
      idConflict db item_id n = false →
      update_field db item_id "id" value =
        (.content, updRows db item_id (fun it => { it with id := n }))) ∧
    (pyStrip value ≠ "" →
      update_field db item_id "Notes" value =
        (.content, updRows db item_id (setTextField "notes" value))) := by
  constructor
  · intro n hne haff hconf
    rw [update_field_other db item_id "id" value hne (by decide) (by decide),
      execUpdate_id]
    show (match intAffinityPy (PyVal.s value) with
          | Val.i n =>
              if idConflict db item_id n then
                (Fragment.errorMessage "Failed to update value", db)
              else (Fragment.content, updRows db item_id (fun it => { it with id := n }))
          | Val.r _ => (Fragment.errorMessage "Failed to update value", db)
          | Val.t _ => (Fragment.errorMessage "Failed to update value", db)) = _
    rw [show intAffinityPy (PyVal.s value) = intAffinity value from rfl, haff]
    show (if idConflict db item_id n then _ else _) = _
    rw [hconf]
    rfl
  · intro hne
    rw [update_field_other db item_id "Notes" value hne (by decide) (by decide),
      execUpdate_notes_variant]
    rfl

/-- Closed instance of C5 (amended): updating the `id` column through
the endpoint succeeds and rewrites the key, and the case-variant field
name `Notes` executes a write to the notes column. -/
theorem C5_amended_no_whitelist_witness :
    update_field dbPaint 1 "id" "2" =
      (.content, updRows dbPaint 1 (fun it => { it with id := 2 })) ∧
    update_field dbPaint 1 "Notes" "hi" =
      (.content, updRows dbPaint 1 (setTextField "notes" "hi")) := by
  constructor
  · exact (C5_amended_no_whitelist dbPaint 1 "2").1 2 (by decide) (by decide) (by decide)
  · exact (C5_amended_no_whitelist dbPaint 1 "hi").2 (by decide)

/-- C6 fails as stated: updating the cost field stores the parsed value
without rounding it to two fractional digits — `1.005` is stored as
exactly `1.005`, which no 2-digit rounding equals. -/
lemma pyFloat_1005 : pyFloat (pyStrip (removeDollars "1.005")) = some (201 / 200) := by
  rw [show pyStrip (removeDollars "1.005") = "1.005" from by decide, pyFloat,
    show pyStrip "1.005" = "1.005" from by decide,
    show parseDecLit "1.005".data = some ⟨false, ['1'], ['0', '0', '5'], false, []⟩
      from by decide]
  have d1 : digitsVal ['1'] = 1 := by decide
  have d2 : digitsVal ['0', '0', '5'] = 5 := by decide
  have d0 : digitsVal ([] : List Char) = 0 := by decide
  simp [litVal, powTen, d1, d2, d0]
  norm_num

theorem C6_counterexample :
    (update_field dbPaint 1 "cost" "1.005").2.items.map (fun it => it.cost) =
      [201 / 200] ∧
    round2 (201 / 200) ≠ 201 / 200 := by
  have hp := pyFloat_1005
  constructor
  · rw [update_field_cost _ _ _ (by decide), hp]
    show ((if (201 / 200 : Rat) < 0 then _
           else execUpdate dbPaint 1 "cost" (.fv (201 / 200))).2.items.map
            (fun it => it.cost)) = _
    rw [if_neg (by norm_num), execUpdate_cost, if_neg (by norm_num)]
    simp [updRows, dbPaint]
  · rw [round2]
    have : round ((201 / 200 : Rat) * 100) = 101 := by
      rw [round_eq, show ((201 / 200 : Rat) * 100 + 1 / 2) = ((101 : Int) : Rat) by norm_num,
        Int.floor_intCast]
    rw [this]
    norm_num

/-- C6 amended: only the add-item path rounds the cost to two
fractional digits (through the pydantic validator); the update-cost
operation and both budget-setting operations store the parsed value
exactly as parsed, without rounding. -/
theorem C6_amended_rounding (db : DB) :
    (∀ c i s, ∀ q : Int, ∀ co : Rat, ∀ n itm, mkShoppingItem c i q co n s = some itm →
      (add_item db itm).items =
        db.items ++ [⟨db.nextItemId, c, i, q, round2 co, n, .i 0, s⟩]) ∧
    (∀ item_id value, ∀ q : Rat, pyStrip value ≠ "" →
      pyFloat (pyStrip (removeDollars value)) = some q → 0 ≤ q →
      (update_field db item_id "cost" value).2 =
        updRows db item_id (fun it => { it with cost := q })) ∧
    (∀ a : Rat, 0 ≤ a →
      (update_budget db a).2.budget = db.budget ++ [⟨db.nextBudgetId, a⟩]) ∧
    (∀ value, ∀ b : Rat, pyFloat (pyStrip (removeDollars value)) = some b → 0 ≤ b →
      (update_budget_inline db value).2.budget =
        db.budget ++ [⟨db.nextBudgetId, b⟩]) := by
  refine ⟨?_, ?_, ?_, ?_⟩
  · intro c i s q co n itm hm
    rw [mkShoppingItem] at hm
    by_cases h1 : q < 0
    · rw [if_pos h1] at hm
      cases hm
    · rw [if_neg h1] at hm
      by_cases h2 : co < 0
      · rw [if_pos h2] at hm
        cases hm
      · rw [if_neg h2] at hm
        cases hm
        rfl
  · intro item_id value q hne hsome hq
    rw [update_field_cost db item_id value hne, hsome]
    show ((if q < 0 then (Fragment.errorMessage "Cost cannot be negative", db)
           else execUpdate db item_id "cost" (.fv q)) :
            Fragment × DB).2 = _
    rw [if_neg (not_lt.mpr hq), execUpdate_cost, if_neg (not_lt.mpr hq)]
  · intro a ha
    rw [update_budget, if_neg (not_lt.mpr ha)]
  · intro value b hsome hb
    rw [update_budget_inline.eq_def, hsome]
    show ((if b < 0 then (Fragment.errorMessage "Budget cannot be negative", db)
           else (Fragment.content,
             { db with
               budget := db.budget ++ [⟨db.nextBudgetId, b⟩],
               nextBudgetId := db.nextBudgetId + 1 })) :
            Fragment × DB).2.budget = _
    rw [if_neg (not_lt.mpr hb)]

/-- Closed instance of C6 (amended): adding an item stores the rounded
cost, while updating cost to `1.005` and setting the budget inline to
`1.005` store the exact unrounded value. -/
theorem C6_amended_rounding_witness :
    (add_item dbPaint ⟨"Paint", "Tape", 1, round2 5, none, "Lowe"⟩).items =
      dbPaint.items ++ [⟨2, "Paint", "Tape", 1, round2 5, none, .i 0, "Lowe"⟩] ∧
    (update_field dbPaint 1 "cost" "1.005").2 =
      updRows dbPaint 1 (fun it => { it with cost := 201 / 200 }) ∧
    (update_budget_inline dbPaint "1.005").2.budget =
      [⟨1, 1000⟩, ⟨2, 201 / 200⟩] := by
  refine ⟨?_, ?_, ?_⟩
  · exact (C6_amended_rounding dbPaint).1 "Paint" "Tape" "Lowe" 1 5 none _
      (by rw [mkShoppingItem, if_neg (by norm_num), if_neg (by norm_num)])
  · exact (C6_amended_rounding dbPaint).2.1 1 "1.005" (201 / 200) (by decide)
      pyFloat_1005 (by norm_num)
  · exact (C6_amended_rounding dbPaint).2.2.2 "1.005" (201 / 200)
      pyFloat_1005 (by norm_num)

/-- C10 fails on its "verbatim" reading: a numeric-looking string
written to the `found` column is converted by the column's INTEGER
affinity, so updating found to `"2"` stores the integer 2 — a
non-boolean value, but not the verbatim text `"2"`. -/
theorem C10_counterexample :
    (update_field dbPaint 1 "found" "2").2.items.map (fun it => it.found) = [Val.i 2] ∧
    Val.i 2 ≠ Val.t "2" ∧ Val.i 2 ≠ Val.i 0 ∧ Val.i 2 ≠ Val.i 1 := by
  refine ⟨?_, by decide, by decide, by decide⟩
  decide

/-- C10 amended: for every field other than quantity and cost, any
value that is non-empty after stripping is accepted with no type
validation and passed unmodified to the store; the TEXT columns store
it verbatim, while the INTEGER-affinity `found` column converts
numeric-looking text to a number — so `found` can be set to
non-boolean values such as the integer 2 or the text `yes`. -/
theorem C10_amended_no_type_validation (db : DB) (item_id : Int) (value : String)
    (hne : pyStrip value ≠ "") :
    (∀ field,
      (field = "category" ∨ field = "item" ∨ field = "notes" ∨ field = "store") →
      update_field db item_id field value =
        (.content, updRows db item_id (setTextField field value))) ∧
    (update_field db item_id "found" value =
      (.content, updRows db item_id (fun it => { it with found := intAffinity value }))) ∧
    intAffinity "2" = Val.i 2 ∧ intAffinity "yes" = Val.t "yes" := by
  refine ⟨?_, ?_, by decide, by decide⟩
  · intro field hf
    have hq : field ≠ "quantity" := by rcases hf with rfl | rfl | rfl | rfl <;> decide
    have hc : field ≠ "cost" := by rcases hf with rfl | rfl | rfl | rfl <;> decide
    rw [update_field_other db item_id field value hne hq hc, execUpdate_text _ _ _ _ hf]
    rfl
  · rw [update_field_other db item_id "found" value hne (by decide) (by decide),
      execUpdate_found]
    rfl

/-- Closed instance of C10 (amended): `found` becomes the text `yes`
and the verbatim-notes update stores the submitted string. -/
theorem C10_amended_no_type_validation_witness :
    update_field dbPaint 1 "found" "yes" =
      (.content, updRows dbPaint 1 (fun it => { it with found := intAffinity "yes" })) ∧
    update_field dbPaint 1 "notes" "hello" =
      (.content, updRows dbPaint 1 (setTextField "notes" "hello")) := by
  constructor
  · exact (C10_amended_no_type_validation dbPaint 1 "yes" (by decide)).2.1
  · exact (C10_amended_no_type_validation dbPaint 1 "hello" (by decide)).1 "notes"
      (Or.inr (Or.inr (Or.inl rfl)))

example : valKey (Val.i 0) < valKey (Val.i 1) := by decide
example : ¬ (valKey (Val.i 1) < valKey (Val.i 0)) := by decide
example : ¬ (valKey (Val.i 1) = valKey (Val.i 0)) := by decide

lemma sqlLe_trans : ∀ a b c : Item,
    sqlLe a b = true → sqlLe b c = true → sqlLe a c = true := by
  intro a b c hab hbc
  simp only [sqlLe, decide_eq_true_eq] at hab hbc ⊢
  exact le_trans hab hbc

lemma sqlLe_total : ∀ a b : Item, (sqlLe a b || sqlLe b a) = true := by
  intro a b
  simp only [sqlLe, Bool.or_eq_true, decide_eq_true_eq]
  exact le_total _ _

lemma catLe_trans : ∀ a b c : String × List Item,
    catLe a b = true → catLe b c = true → catLe a c = true := by
  intro a b c hab hbc
  simp only [catLe, decide_eq_true_eq] at hab hbc ⊢
  exact le_trans hab hbc

lemma catLe_total : ∀ a b : String × List Item, (catLe a b || catLe b a) = true := by
  intro a b
  simp only [catLe, Bool.or_eq_true, decide_eq_true_eq]
  exact le_total _ _

lemma sqlLe_unpack {a b : Item} (h : sqlLe a b = true) :
    valKey a.found < valKey b.found ∨
      (valKey a.found = valKey b.found ∧
        (a.category < b.category ∨ (a.category = b.category ∧ -a.id ≤ -b.id))) := by
  simp only [sqlLe, decide_eq_true_eq, sqlKey] at h
  rcases (Prod.Lex.le_iff _ _).mp h with h1 | ⟨h1, h2⟩
  · exact Or.inl h1
  · right
    refine ⟨h1, ?_⟩
    rcases (Prod.Lex.le_iff _ _).mp h2 with h3 | ⟨h3, h4⟩
    · exact Or.inl h3
    · exact Or.inr ⟨h3, h4⟩

lemma pyItemLe_of_sqlLe {a b : Item} (hcat : a.category = b.category)
    (h : sqlLe a b = true) : pyItemLe a b = true := by
  simp only [pyItemLe, decide_eq_true_eq, pyItemKey]
  rcases sqlLe_unpack h with h1 | ⟨h1, h2 | ⟨h2, h3⟩⟩
  · exact le_of_lt ((Prod.Lex.lt_iff _ _).mpr (Or.inl h1))
  · exact absurd h2 (by rw [hcat]; exact lt_irrefl _)
  · exact (Prod.Lex.le_iff _ _).mpr (Or.inr ⟨h1, h3⟩)

lemma claimRel_of_sqlLe {a b : Item}
    (hb : b.found = Val.i 0 ∨ b.found = Val.i 1)
    (hcat : a.category = b.category) (hid : a.id ≠ b.id)
    (h : sqlLe a b = true) :
    (a.found = Val.i 1 → b.found = Val.i 1) ∧ (a.found = b.found → b.id < a.id) := by
  rcases sqlLe_unpack h with h1 | ⟨h1, h2 | ⟨h2, h3⟩⟩
  · constructor
    · intro haf
      rcases hb with hbf | hbf
      · rw [haf, hbf] at h1
        exact absurd h1 (by decide)
      · exact hbf
    · intro hfe
      rw [hfe] at h1
      exact absurd h1 (lt_irrefl _)
  · exact absurd h2 (by rw [hcat]; exact lt_irrefl _)
  · constructor
    · intro haf
      rcases hb with hbf | hbf
      · rw [haf, hbf] at h1
        exact absurd h1 (by decide)
      · exact hbf
    · intro _
      have hble : b.id ≤ a.id := by omega
      exact lt_of_le_of_ne hble fun he => hid he.symm

lemma insertGrouped_keys (acc : List (String × List Item)) (it : Item) :
    (insertGrouped acc it).map Prod.fst =
      (if it.category ∈ acc.map Prod.fst then acc.map Prod.fst
       else acc.map Prod.fst ++ [it.category]) := by
  induction acc with
  | nil => simp [insertGrouped]
  | cons p rest ih =>
      obtain ⟨c, l⟩ := p
      rw [insertGrouped]
      by_cases hc : c = it.category
      · subst hc
        simp
      · rw [if_neg hc]
        simp only [List.map_cons]
        rw [ih]
        by_cases hmem : it.category ∈ rest.map Prod.fst
        · rw [if_pos hmem, if_pos (by simp [hmem])]
        · rw [if_neg hmem,
            if_neg (by simp [hmem]; exact fun h => hc h.symm), List.cons_append]

lemma insertGrouped_nodup_keys {acc : List (String × List Item)} {it : Item}
    (h : (acc.map Prod.fst).Nodup) : ((insertGrouped acc it).map Prod.fst).Nodup := by
  rw [insertGrouped_keys]
  split
  · exact h
  · next hmem =>
      rw [List.nodup_append]
      exact ⟨h, List.nodup_singleton _, by simpa using hmem⟩

lemma insertGrouped_cats {acc : List (String × List Item)} {it : Item}
    (h : ∀ p ∈ acc, ∀ x ∈ p.2, x.category = p.1) :
    ∀ p ∈ insertGrouped acc it, ∀ x ∈ p.2, x.category = p.1 := by
  induction acc with
  | nil =>
      intro p hp x hx
      rw [insertGrouped] at hp
      rw [List.mem_singleton] at hp
      subst hp
      rw [List.mem_singleton] at hx
      subst hx
      rfl
  | cons q rest ih =>
      obtain ⟨c, l⟩ := q
      intro p hp x hx
      rw [insertGrouped] at hp
      by_cases hc : c = it.category
      · rw [if_pos hc] at hp
        rcases List.mem_cons.mp hp with rfl | hp
        · rcases List.mem_append.mp hx with hx | hx
          · exact h (c, l) (List.mem_cons_self _ _) x hx
          · rw [List.mem_singleton] at hx
            subst hx
            exact hc.symm
        · exact h p (List.mem_cons_of_mem _ hp) x hx
      · rw [if_neg hc] at hp
        rcases List.mem_cons.mp hp with rfl | hp
        · exact h (c, l) (List.mem_cons_self _ _) x hx
        · exact ih (fun p hp => h p (List.mem_cons_of_mem _ hp)) p hp x hx

lemma insertGrouped_sublist {acc : List (String × List Item)} {it : Item}
    {processed : List Item} (h : ∀ p ∈ acc, p.2.Sublist processed) :
    ∀ p ∈ insertGrouped acc it, p.2.Sublist (processed ++ [it]) := by
  induction acc with
  | nil =>
      intro p hp
      rw [insertGrouped] at hp
      rw [List.mem_singleton] at hp
      subst hp
      exact List.Sublist.append (List.nil_sublist processed) (List.Sublist.refl [it])
  | cons q rest ih =>
      obtain ⟨c, l⟩ := q
      intro p hp
      rw [insertGrouped] at hp
      by_cases hc : c = it.category
      · rw [if_pos hc] at hp
        rcases List.mem_cons.mp hp with rfl | hp
        · exact List.Sublist.append (h (c, l) (List.mem_cons_self _ _))
            (List.Sublist.refl [it])
        · exact (h p (List.mem_cons_of_mem _ hp)).trans (List.sublist_append_left _ _)
      · rw [if_neg hc] at hp
        rcases List.mem_cons.mp hp with rfl | hp
        · exact (h (c, l) (List.mem_cons_self _ _)).trans (List.sublist_append_left _ _)
        · exact ih (fun p hp => h p (List.mem_cons_of_mem _ hp)) p hp

lemma insertGrouped_mem_old {acc : List (String × List Item)} {it x : Item}
    (hold : ∃ p ∈ acc, p.1 = x.category ∧ x ∈ p.2) :
    ∃ p ∈ insertGrouped acc it, p.1 = x.category ∧ x ∈ p.2 := by
  induction acc with
  | nil => simp at hold
  | cons q rest ih =>
      obtain ⟨c, l⟩ := q
      obtain ⟨p, hp, hpc, hpx⟩ := hold
      rw [insertGrouped]
      by_cases hc : c = it.category
      · rw [if_pos hc]
        rcases List.mem_cons.mp hp with rfl | hp
        · exact ⟨(c, l ++ [it]), List.mem_cons_self _ _, hpc, List.mem_append_left _ hpx⟩
        · exact ⟨p, List.mem_cons_of_mem _ hp, hpc, hpx⟩
      · rw [if_neg hc]
        rcases List.mem_cons.mp hp with rfl | hp
        · exact ⟨(c, l), List.mem_cons_self _ _, hpc, hpx⟩
        · obtain ⟨r, hr, hrc, hrx⟩ := ih ⟨p, hp, hpc, hpx⟩
          exact ⟨r, List.mem_cons_of_mem _ hr, hrc, hrx⟩

lemma insertGrouped_mem_new (acc : List (String × List Item)) (it : Item) :
    ∃ p ∈ insertGrouped acc it, p.1 = it.category ∧ it ∈ p.2 := by
  induction acc with
  | nil =>
      refine ⟨(it.category, [it]), ?_, rfl, List.mem_singleton_self _⟩
      rw [insertGrouped]
      exact List.mem_singleton_self _
  | cons q rest ih =>
      obtain ⟨c, l⟩ := q
      rw [insertGrouped]
      by_cases hc : c = it.category
      · rw [if_pos hc]
        exact ⟨(c, l ++ [it]), List.mem_cons_self _ _, hc,
          List.mem_append_right _ (List.mem_singleton_self _)⟩
      · rw [if_neg hc]
        obtain ⟨r, hr, hrc, hrx⟩ := ih
        exact ⟨r, List.mem_cons_of_mem _ hr, hrc, hrx⟩

lemma grouped_foldl_ok (l : List Item) :
    ∀ (processed : List Item) (acc : List (String × List Item)),
      (acc.map Prod.fst).Nodup →
      (∀ p ∈ acc, ∀ x ∈ p.2, x.category = p.1) →
      (∀ p ∈ acc, p.2.Sublist processed) →
      (∀ x ∈ processed, ∃ p ∈ acc, p.1 = x.category ∧ x ∈ p.2) →
      ((l.foldl insertGrouped acc).map Prod.fst).Nodup ∧
      (∀ p ∈ l.foldl insertGrouped acc, ∀ x ∈ p.2, x.category = p.1) ∧
      (∀ p ∈ l.foldl insertGrouped acc, p.2.Sublist (processed ++ l)) ∧
      (∀ x ∈ processed ++ l, ∃ p ∈ l.foldl insertGrouped acc, p.1 = x.category ∧ x ∈ p.2) := by
  induction l with
  | nil =>
      intro processed acc h1 h2 h3 h4
      simp only [List.foldl_nil, List.append_nil]
      exact ⟨h1, h2, h3, h4⟩
  | cons a l ih =>
      intro processed acc h1 h2 h3 h4
      have step := ih (processed ++ [a]) (insertGrouped acc a)
        (insertGrouped_nodup_keys h1) (insertGrouped_cats h2)
        (insertGrouped_sublist h3)
        (fun x hx => by
          rcases List.mem_append.mp hx with hx | hx
          · exact insertGrouped_mem_old (h4 x hx)
          · rw [List.mem_singleton] at hx
            subst hx
            exact insertGrouped_mem_new acc x)
      rw [show processed ++ a :: l = (processed ++ [a]) ++ l by simp]
      exact step

lemma fetch_ok (db : DB) :
    ((fetch_shopping_list db).map Prod.fst).Nodup ∧
    (∀ p ∈ fetch_shopping_list db, ∀ x ∈ p.2, x.category = p.1) ∧
    (∀ p ∈ fetch_shopping_list db, p.2.Sublist (db.items.mergeSort sqlLe)) ∧
    (∀ x ∈ db.items.mergeSort sqlLe,
      ∃ p ∈ fetch_shopping_list db, p.1 = x.category ∧ x ∈ p.2) := by
  have h := grouped_foldl_ok (db.items.mergeSort sqlLe) [] []
    (by simp) (by simp) (by simp) (by simp)
  simp only [List.nil_append] at h
  exact h

lemma ShoppingTable_eq_sections (cats : List (String × List Item)) (hne : cats ≠ [])
    (hsorted : ∀ p ∈ cats, p.2.Pairwise (fun a b => pyItemLe a b = true)) :
    ShoppingTable cats = .sections (cats.mergeSort catLe) := by
  rcases cats with _ | ⟨q, r⟩
  · exact absurd rfl hne
  · rw [ShoppingTable]
    congr 1
    have hmap : ∀ p ∈ (q :: r).mergeSort catLe,
        (p.1, p.2.mergeSort pyItemLe) = p := by
      intro p hp
      have hmem : p ∈ q :: r := (List.mergeSort_perm (q :: r) catLe).mem_iff.mp hp
      rw [List.mergeSort_of_sorted (hsorted p hmem)]
    rw [List.map_congr_left hmap]
    simp
    exact List.cons_ne_nil q r

/-- C7: grouped fetching partitions the stored items into a mapping
from category to a sequence in which (for boolean found flags and
distinct ids) every unfound item precedes every found item and items
of equal found status appear in descending id order; the rendered
table emits the category sections in strictly ascending alphabetical
order while preserving each category's item order. -/
theorem C7_grouping_and_order (db : DB)
    (hB : ∀ it ∈ db.items, it.found = Val.i 0 ∨ it.found = Val.i 1)
    (hN : (db.items.map (fun it => it.id)).Nodup) :
    (∀ p ∈ fetch_shopping_list db,
        (∀ x ∈ p.2, x.category = p.1) ∧
        p.2.Pairwise (fun a b =>
          (a.found = Val.i 1 → b.found = Val.i 1) ∧
          (a.found = b.found → b.id < a.id))) ∧
    (∀ it ∈ db.items,
        ∃ p ∈ fetch_shopping_list db, p.1 = it.category ∧ it ∈ p.2) ∧
    ((fetch_shopping_list db).map Prod.fst).Nodup ∧
    (db.items ≠ [] →
      ShoppingTable (fetch_shopping_list db) =
        .sections ((fetch_shopping_list db).mergeSort catLe) ∧
      (((fetch_shopping_list db).mergeSort catLe).map Prod.fst).Pairwise
        (fun a b => a < b)) := by
  obtain ⟨hkeys, hcats, hsub, hcompl⟩ := fetch_ok db
  have hperm : (db.items.mergeSort sqlLe).Perm db.items := List.mergeSort_perm _ _
  have hsorted : (db.items.mergeSort sqlLe).Pairwise (fun a b => sqlLe a b = true) :=
    List.sorted_mergeSort sqlLe_trans sqlLe_total _
  have hBs : ∀ it ∈ db.items.mergeSort sqlLe,
      it.found = Val.i 0 ∨ it.found = Val.i 1 :=
    fun it hit => hB it (hperm.mem_iff.mp hit)
  have hNs : ((db.items.mergeSort sqlLe).map (fun it => it.id)).Nodup :=
    ((hperm.map (fun it => it.id)).symm).nodup hN
  have hidNe : (db.items.mergeSort sqlLe).Pairwise (fun a b => a.id ≠ b.id) :=
    List.pairwise_map.mp hNs
  have hgroup : ∀ p ∈ fetch_shopping_list db,
      p.2.Pairwise (fun a b => sqlLe a b = true ∧ a.id ≠ b.id) :=
    fun p hp => (hsorted.sublist (hsub p hp)).and (hidNe.sublist (hsub p hp))
  have hpy : ∀ p ∈ fetch_shopping_list db,
      p.2.Pairwise (fun a b => pyItemLe a b = true) := by
    intro p hp
    refine (hsorted.sublist (hsub p hp)).imp_of_mem ?_
    intro a b ha hb hab
    exact pyItemLe_of_sqlLe
      (by rw [hcats p hp a ha, hcats p hp b hb]) hab
  refine ⟨?_, ?_, hkeys, ?_⟩
  · intro p hp
    refine ⟨hcats p hp, ?_⟩
    refine (hgroup p hp).imp_of_mem ?_
    intro a b ha hb hab
    exact claimRel_of_sqlLe
      (hBs b ((hsub p hp).subset hb))
      (by rw [hcats p hp a ha, hcats p hp b hb]) hab.2 hab.1
  · intro it hit
    exact hcompl it (hperm.mem_iff.mpr hit)
  · intro hne
    have hfne : fetch_shopping_list db ≠ [] := by
      obtain ⟨x, hx⟩ := List.exists_mem_of_ne_nil _ hne
      obtain ⟨p, hp, _, _⟩ := hcompl x (hperm.mem_iff.mpr hx)
      exact List.ne_nil_of_mem hp
    refine ⟨ShoppingTable_eq_sections _ hfne hpy, ?_⟩
    have hsortcat : ((fetch_shopping_list db).mergeSort catLe).Pairwise
        (fun a b => catLe a b = true) :=
      List.sorted_mergeSort catLe_trans catLe_total _
    have hnodup2 : (((fetch_shopping_list db).mergeSort catLe).map Prod.fst).Nodup :=
      (((List.mergeSort_perm (fetch_shopping_list db) catLe).map Prod.fst).symm).nodup
        hkeys
    have hne2 : ((fetch_shopping_list db).mergeSort catLe).Pairwise
        (fun a b => a.1 ≠ b.1) := List.pairwise_map.mp hnodup2
    rw [List.pairwise_map]
    refine (hsortcat.and hne2).imp ?_
    intro a b hab
    have hle : a.1 ≤ b.1 := by
      have := hab.1
      simpa [catLe] using this
    exact lt_of_le_of_ne hle hab.2

/-- Closed instance of C7: a two-category store with boolean found
flags and distinct ids has pairwise-distinct section keys and renders
as the alphabetically sorted sections of its grouped fetch. -/
theorem C7_grouping_and_order_witness :
    ((fetch_shopping_list dbTwo).map Prod.fst).Nodup ∧
    ShoppingTable (fetch_shopping_list dbTwo) =
      .sections ((fetch_shopping_list dbTwo).mergeSort catLe) := by
  have h := C7_grouping_and_order dbTwo
    (by
      intro it hit
      rcases List.mem_cons.mp hit with rfl | hit
      · exact Or.inl rfl
      · rcases List.mem_cons.mp hit with rfl | hit
        · exact Or.inr rfl
        · simp at hit)
    (by decide)
  exact ⟨h.2.2.1, (h.2.2.2 (by decide)).1⟩
